import Mathlib

/-
Verification of the DeployBot core control plane (chat-driven Kubernetes
operator): a shallow embedding of the command parser, the priority queue,
the FIFO mutex, the Kubernetes execution adapter, the identity/quota policy
gate, the scheduler worker loop and the bootstrap shutdown handlers, with
theorems about their behaviour.

Strings from the source are modelled as `List Char`; JavaScript `Map`s are
modelled as functions with a default value; asynchronous adapter calls are
modelled by oracles returning `Except`; wall-clock timestamps are `Nat`
parameters.
-/

namespace DeployBot

/-! ## Parser (lib/parser/parseCommand.ts, variant with the HELP rule) -/

/-- Command kinds produced by the classifier. -/
inductive CommandType
  | HELP
  | READ
  | DRY_RUN
  | EXECUTE
deriving DecidableEq, Repr

/-- Mutating actions of an EXECUTE (or DRY_RUN) command. -/
inductive ExecuteAction
  | SCALE
  | RESTART
deriving DecidableEq, Repr

/-- `ParsedCommand` from lib/scheduler/types: classified user intent. -/
structure ParsedCommand where
  ctype : CommandType
  action : Option ExecuteAction
  targetReplicas : Option Nat
  rawText : List Char
deriving DecidableEq, Repr

/-- ASCII whitespace, the characters relevant to `trim` and `\s` here. -/
def isWS (c : Char) : Bool :=
  c == ' ' || c == '\t' || c == '\n' || c == '\r'

/-- JavaScript `String.prototype.trim` on a character list. -/
def trimCL (l : List Char) : List Char :=
  ((l.dropWhile isWS).reverse.dropWhile isWS).reverse

/-- JavaScript `String.prototype.toLowerCase` on a character list. -/
def toLowerCL (l : List Char) : List Char :=
  l.map Char.toLower

/-- `input.trim().toLowerCase()`, the `rawText` computed by the parser. -/
def rawTextOf (input : List Char) : List Char :=
  toLowerCL (trimCL input)

/-- `s.includes(pat)`: `pat` occurs as a contiguous substring of `s`. -/
def hasSub (s pat : List Char) : Prop := pat <:+: s

instance (s pat : List Char) : Decidable (hasSub s pat) := by
  unfold hasSub
  infer_instance

/-- `s.startsWith(pat)`. -/
def startsWithCL (s pat : List Char) : Prop := pat <+: s

instance (s pat : List Char) : Decidable (startsWithCL s pat) := by
  unfold startsWithCL
  infer_instance

/-- `parseInt` on a non-empty run of decimal digits. -/
def digitsToNat (ds : List Char) : Nat :=
  ds.foldl (fun a c => a * 10 + (c.toNat - ('0').toNat)) 0

/-- After a literal `to`, the regex `\s+(\d+)` : at least one whitespace
character, then a maximal non-empty digit run (the capture). -/
def tryWsDigits (l : List Char) : Option Nat :=
  let l1 := l.dropWhile isWS
  if l1.length < l.length then
    let ds := l1.takeWhile Char.isDigit
    if ds.isEmpty then none else some (digitsToNat ds)
  else none

/-- Scan for the first position where `to\s+(\d+)` matches, as the
backtracking regex engine does after the lazy `.*?`. -/
def findToNum : List Char → Option Nat
  | [] => none
  | c :: cs =>
    if ("to".toList).isPrefixOf (c :: cs) then
      match tryWsDigits ((c :: cs).drop 2) with
      | some n => some n
      | none => findToNum cs
    else findToNum cs

/-- The remainder of `l` just after the first occurrence of `pat`, if any. -/
def afterFirst (pat : List Char) : List Char → Option (List Char)
  | [] => if pat.isEmpty then some [] else none
  | c :: cs =>
    if pat.isPrefixOf (c :: cs) then some ((c :: cs).drop pat.length)
    else afterFirst pat cs

/-- The regex `scale.*?to\s+(\d+)` of the parser: the digits captured after
the first `to\s+\d+` that follows the first `scale`. -/
def extractScaleTarget (l : List Char) : Option Nat :=
  match afterFirst ("scale".toList) l with
  | none => none
  | some rest => findToNum rest

/-- `rawText.replace(/^dry\s+run\s+/, "")`: strip a leading `dry`,
whitespace, `run`, whitespace; leave the text unchanged when the regex does
not match at the start. -/
def stripDryRun (l : List Char) : List Char :=
  if ("dry".toList).isPrefixOf l then
    let r1 := l.drop 3
    let r2 := r1.dropWhile isWS
    if r1.length = r2.length then l
    else if ("run".toList).isPrefixOf r2 then
      let r3 := r2.drop 3
      let r4 := r3.dropWhile isWS
      if r3.length = r4.length then l else r4
    else l
  else l

/-- `parseCommand` (lib/parser/parseCommand.ts, the variant with the HELP
rule, which is the one the chat route consumes: the route handles a HELP
classification). Rule order: HELP, then DRY_RUN, then EXECUTE/SCALE, then
EXECUTE/RESTART, then READ. -/
def parseCommand (input : List Char) : ParsedCommand :=
  let rawText := rawTextOf input
  if rawText = "help".toList ∨ hasSub rawText ("help".toList) then
    ⟨.HELP, none, none, rawText⟩
  else if startsWithCL rawText ("dry run".toList) ∨
      hasSub rawText ("what happens".toList) ∨
      hasSub rawText ("what if".toList) ∨
      hasSub rawText ("simulate".toList) then
    let dryRunCommand := trimCL (stripDryRun rawText)
    match (if hasSub dryRunCommand ("scale".toList) then
        extractScaleTarget dryRunCommand else none) with
    | some n => ⟨.DRY_RUN, some .SCALE, some n, rawText⟩
    | none =>
      if hasSub dryRunCommand ("restart".toList) then
        ⟨.DRY_RUN, some .RESTART, none, rawText⟩
      else ⟨.DRY_RUN, none, none, rawText⟩
  else
    match (if hasSub rawText ("scale".toList) then
        extractScaleTarget rawText else none) with
    | some n => ⟨.EXECUTE, some .SCALE, some n, rawText⟩
    | none =>
      if hasSub rawText ("restart".toList) then
        ⟨.EXECUTE, some .RESTART, none, rawText⟩
      else ⟨.READ, none, none, rawText⟩

/-- Accumulator-based whitespace tokenizer, used to state "contains the
token `help`". -/
def wordsAux : List Char → List Char → List (List Char)
  | [], acc => if acc.isEmpty then [] else [acc.reverse]
  | c :: cs, acc =>
    if isWS c then
      if acc.isEmpty then wordsAux cs []
      else acc.reverse :: wordsAux cs []
    else wordsAux cs (c :: acc)

/-- The whitespace-separated tokens of a character list. -/
def wordsCL (l : List Char) : List (List Char) :=
  wordsAux l []

/-! ## Scheduler data (lib/scheduler/types.ts) -/

/-- `ScheduledCommand`: an EXECUTE command awaiting execution. -/
structure ScheduledCommand where
  id : String
  executionId : String
  userId : String
  priority : Nat
  timestamp : Nat
  parsed : ParsedCommand
deriving DecidableEq, Repr

/-- The queue ordering key `(priority asc, timestamp asc)`: the comparator
`(a, b) => a.priority - b.priority, ties by a.timestamp - b.timestamp`
reports `a` not after `b` exactly when this holds. -/
def keyLe (a b : ScheduledCommand) : Prop :=
  a.priority < b.priority ∨ (a.priority = b.priority ∧ a.timestamp ≤ b.timestamp)

instance (a b : ScheduledCommand) : Decidable (keyLe a b) := by
  unfold keyLe
  infer_instance

/-- Strict version of the key order. -/
def keyLt (a b : ScheduledCommand) : Prop :=
  a.priority < b.priority ∨ (a.priority = b.priority ∧ a.timestamp < b.timestamp)

instance (a b : ScheduledCommand) : Decidable (keyLt a b) := by
  unfold keyLt
  infer_instance

/-! ## Priority queue (lib/scheduler/priorityQueue.ts)

`enqueue` pushes and re-sorts with the stable `Array.prototype.sort` under
the `(priority, timestamp)` comparator; a stable sort of a pushed-back
element is modelled by a stable insertion sort (each element is inserted
after all elements it does not strictly precede). `dequeue` shifts the
front element or returns nothing on an empty queue. -/

/-- Stable ordered insert: `c` goes before the first element it strictly
precedes, hence after every element with an equal key. -/
def insertCmd (c : ScheduledCommand) : List ScheduledCommand → List ScheduledCommand
  | [] => [c]
  | b :: l => if keyLt c b then c :: b :: l else b :: insertCmd c l

/-- Stable sort by `(priority, timestamp)`, the observable behaviour of the
queue's `sort` call. -/
def sortCmds (l : List ScheduledCommand) : List ScheduledCommand :=
  l.foldl (fun acc c => insertCmd c acc) []

/-- `PriorityQueue.enqueue`: push then sort by priority then timestamp. -/
def enqueue (q : List ScheduledCommand) (c : ScheduledCommand) : List ScheduledCommand :=
  sortCmds (q ++ [c])

/-- `PriorityQueue.dequeue`: remove and return the front element; `none`
when the queue is empty. -/
def dequeue (q : List ScheduledCommand) : Option ScheduledCommand × List ScheduledCommand :=
  match q with
  | [] => (none, [])
  | x :: xs => (some x, xs)

/-- An operation on the shared queue. -/
inductive QueueOp
  | enq (c : ScheduledCommand)
  | deq
deriving DecidableEq, Repr

/-- Queue state together with the sequence of dequeue outputs. -/
structure QueueTrace where
  state : List ScheduledCommand
  outs : List (Option ScheduledCommand)
deriving DecidableEq, Repr

/-- One queue operation applied to a trace. -/
def queueStep (t : QueueTrace) : QueueOp → QueueTrace
  | .enq c => ⟨enqueue t.state c, t.outs⟩
  | .deq => ⟨(dequeue t.state).2, t.outs ++ [(dequeue t.state).1]⟩

/-- Run a sequence of queue operations from the empty queue. -/
def runQueue (ops : List QueueOp) : QueueTrace :=
  ops.foldl queueStep ⟨[], []⟩

/-! ## Mutex (lib/scheduler/mutex.ts)

The source holds `locked : boolean` and a FIFO array `waiters` of promise
resolvers. `acquire` locks immediately when free, else appends the caller
to `waiters`; `release` hands the lock to the shifted head waiter without
clearing `locked`, or clears `locked` when no one waits. Callers are
identified by `Nat`. The fields `holders` (who currently holds the lock),
`granted` (callers granted so far, in grant order) and `arrivals` (callers
in `acquire`-call order) are ghost bookkeeping used only to state the
mutual-exclusion and FIFO properties; `locked` and `waiters` are the
source's fields. -/

structure MutexState where
  locked : Bool
  waiters : List Nat
  holders : List Nat
  granted : List Nat
  arrivals : List Nat
deriving DecidableEq, Repr

/-- A fresh mutex: unlocked, no waiters. -/
def initMutex : MutexState := ⟨false, [], [], [], []⟩

/-- `Mutex.acquire` by caller `c`. -/
def acquire (s : MutexState) (c : Nat) : MutexState :=
  if s.locked then
    { s with waiters := s.waiters ++ [c], arrivals := s.arrivals ++ [c] }
  else
    { s with
      locked := true
      holders := s.holders ++ [c]
      granted := s.granted ++ [c]
      arrivals := s.arrivals ++ [c] }

/-- `Mutex.release` by the current holder: transfer to the head waiter
(leaving `locked` untouched, hence `true`), else clear `locked`. -/
def release (s : MutexState) : MutexState :=
  match s.waiters with
  | w :: ws =>
    { s with
      waiters := ws
      holders := s.holders.drop 1 ++ [w]
      granted := s.granted ++ [w] }
  | [] => { s with locked := false, holders := s.holders.drop 1 }

/-- A mutex operation. -/
inductive MutexOp
  | acq (c : Nat)
  | rel
deriving DecidableEq, Repr

/-- One mutex operation. -/
def mutexStep (s : MutexState) : MutexOp → MutexState
  | .acq c => acquire s c
  | .rel => release s

/-- Run a sequence of mutex operations from a fresh mutex. -/
def runMutex (ops : List MutexOp) : MutexState :=
  ops.foldl mutexStep initMutex

/-- The mutex invariant: at most one holder; `locked` tracks the presence
of a holder; an unlocked mutex has no waiters; and the grants so far
followed by the still-pending waiters list the acquire calls in arrival
order (so grants happen in strict FIFO order of `acquire` calls). -/
def MutexInv (s : MutexState) : Prop :=
  s.holders.length ≤ 1 ∧
  (s.locked = true ↔ s.holders ≠ []) ∧
  (s.locked = false → s.waiters = []) ∧
  s.granted ++ s.waiters = s.arrivals

/-! ## Kubernetes adapter (lib/k8s/client.ts) -/

/-- The hard replica floor. -/
def MIN_REPLICAS : ℚ := 1

/-- The hard replica ceiling. -/
def MAX_REPLICAS : ℚ := 5

/-- A JSON-patch operation issued to the Kubernetes API. -/
structure JsonPatch where
  op : String
  path : String
  value : ℚ
deriving DecidableEq, Repr

/-- The adapter's failure kinds. -/
inductive AdapterFailure
  | kubernetesError (message : String)
  | timeoutError (message : String)
deriving DecidableEq, Repr

/-- `K8sClient.scaleDeployment`: validate that `replicas` is an integer
within `[MIN_REPLICAS, MAX_REPLICAS]`, then issue one JSON patch replacing
`/spec/replicas`. Returns the outcome together with the list of outbound
API calls issued (empty when validation fails before any call). The
`cluster` oracle gives the Kubernetes API's response to a patch. JavaScript
numbers are modelled as rationals; `Number.isInteger` is `den = 1`. -/
def scaleDeployment (cluster : JsonPatch → Except AdapterFailure Unit)
    (replicas : ℚ) : Except AdapterFailure Unit × List JsonPatch :=
  if replicas.den ≠ 1 then
    (.error (.kubernetesError "Invalid replica count. Must be an integer."), [])
  else if replicas < MIN_REPLICAS ∨ replicas > MAX_REPLICAS then
    (.error (.kubernetesError "Invalid replica count. Must be between 1 and 5."), [])
  else
    let patch : JsonPatch := ⟨"replace", "/spec/replicas", replicas⟩
    ((match cluster patch with
      | .ok _ => .ok ()
      | .error _ =>
        .error (.kubernetesError "Failed to scale deployment loadlab.")),
     [patch])

/-! ## Identity & quota policy (lib/auth/identity.ts, Clerk-backed variant) -/

/-- Server-derived user roles. -/
inductive UserRole
  | ADMIN
  | FREE
  | NORMAL
deriving DecidableEq, Repr

/-- `FREE_QUOTA_LIMIT`. -/
def FREE_QUOTA_LIMIT : Nat := 3

/-- The in-memory `userQuotaUsage` map: `get(u) || 0` and `set`, modelled
as a total function with default `0`. -/
def QuotaMap : Type := String → Nat

/-- `userQuotaUsage.get(userId) || 0`. -/
def getUsed (qm : QuotaMap) (u : String) : Nat := qm u

/-- `userQuotaUsage.set(userId, n)`. -/
def setUsed (qm : QuotaMap) (u : String) (n : Nat) : QuotaMap :=
  fun x => if x = u then n else qm x

/-- The empty quota map. -/
def emptyQuota : QuotaMap := fun _ => 0

/-- `deriveRole`: ADMIN when the provider metadata role claim is `ADMIN`;
else FREE while the used count is below the limit; else NORMAL. -/
def deriveRole (metadataRole : Option String) (used : Nat) : UserRole :=
  if metadataRole = some "ADMIN" then .ADMIN
  else if used < FREE_QUOTA_LIMIT then .FREE
  else .NORMAL

/-- `incrementQuota(userId)`. -/
def incrementQuota (qm : QuotaMap) (u : String) : QuotaMap :=
  setUsed qm u (getUsed qm u + 1)

/-- `getQuotaRemaining(userId)` = `max(0, LIMIT - used)` (truncated
subtraction on `Nat`). -/
def getQuotaRemaining (used : Nat) : Nat :=
  FREE_QUOTA_LIMIT - used

/-- `mapRoleToPriority`. -/
def mapRoleToPriority (role : UserRole) : Nat :=
  match role with
  | .ADMIN => 1
  | .FREE => 2
  | .NORMAL => 3

/-- `getPriorityForUser(userId, role)`: ADMIN always 1; FREE with remaining
quota 2; otherwise 3. The caller passes the user's current used count
(the source reads the same quota map inside). -/
def getPriorityForUser (role : UserRole) (used : Nat) : Nat :=
  if role = .ADMIN then 1
  else if role = .FREE ∧ 0 < getQuotaRemaining used then 2
  else 3

/-! ## API policy gate (app/api/chat/route.ts, POST handler) -/

/-- The shapes of gate responses relevant to the scheduling pipeline. -/
inductive GateResp
  | helpResp
  | readResp
  | dryRunResp
  | validationErr
  | quotaExceeded
  | accepted (priority : Nat) (quotaRemaining : Option Nat)
      (queuePosition : Nat) (role : UserRole)
deriving DecidableEq, Repr

/-- HTTP status attached to each gate response. -/
def gateHttpStatus : GateResp → Nat
  | .helpResp => 200
  | .readResp => 200
  | .dryRunResp => 200
  | .validationErr => 400
  | .quotaExceeded => 429
  | .accepted _ _ _ _ => 200

/-- Result of one gate invocation: response, updated quota map, updated
shared queue. -/
structure GateOut where
  resp : GateResp
  qm : QuotaMap
  queue : List ScheduledCommand

/-- The route's replica-bounds validation on EXECUTE/SCALE commands. -/
def outOfBounds (parsed : ParsedCommand) : Bool :=
  match parsed.action, parsed.targetReplicas with
  | some .SCALE, some n => decide (n < 1 ∨ 5 < n)
  | _, _ => false

/-- The POST /chat policy gate: derive the role from the pre-request quota
view, classify the message, answer HELP/READ/DRY_RUN synchronously without
enqueueing, validate bounds, apply the FREE-quota check, compute the
priority from the pre-increment quota view, increment the quota for FREE
users, enqueue, and report `quotaRemaining` as the pre-increment remainder
minus one. -/
def gatePost (qm : QuotaMap) (userId : String) (metadataRole : Option String)
    (message : List Char) (now : Nat) (cid eid : String)
    (queue : List ScheduledCommand) : GateOut :=
  let used := getUsed qm userId
  let role := deriveRole metadataRole used
  let parsed := parseCommand message
  if parsed.ctype = .HELP then ⟨.helpResp, qm, queue⟩
  else if parsed.ctype = .READ then ⟨.readResp, qm, queue⟩
  else if parsed.ctype = .DRY_RUN then ⟨.dryRunResp, qm, queue⟩
  else if outOfBounds parsed then ⟨.validationErr, qm, queue⟩
  else
    let priority := getPriorityForUser role used
    let quotaBefore := getQuotaRemaining used
    if role = .FREE ∧ quotaBefore = 0 then ⟨.quotaExceeded, qm, queue⟩
    else
      let qm2 := if role = .FREE then incrementQuota qm userId else qm
      let cmd : ScheduledCommand := ⟨cid, eid, userId, priority, now, parsed⟩
      let queue2 := enqueue queue cmd
      ⟨.accepted priority
        (if role = .FREE then some (quotaBefore - 1) else none)
        queue2.length role, qm2, queue2⟩

/-! ## Worker (lib/scheduler/worker.ts) -/

/-- `CommandStatus`. -/
inductive CommandStatus
  | PENDING
  | RUNNING
  | SUCCESS
  | FAILED
deriving DecidableEq, Repr

/-- `CommandResult`: the stored outcome of a command execution. -/
structure CommandResult where
  commandId : String
  status : CommandStatus
  error : Option String
  completedAt : Option Nat
deriving DecidableEq, Repr

/-- An adapter method invocation observable from the worker. -/
inductive AdapterCall
  | scaleCall (replicas : Nat)
  | restartCall
  | statusCall
deriving DecidableEq, Repr

/-- Behaviour oracle for the `K8sExecutor` as seen by the worker:
the outcome of `scaleDeployment`, of `restartDeployment`, and the replica
count `getStatus` would report if it were called. -/
structure AdapterOracle where
  scaleOutcome : Nat → Except String Unit
  restartOutcome : Except String Unit
  statusReplicas : Nat

/-- `SchedulerWorker.executeCommand`: explicit dispatch on the action.
SCALE without `targetReplicas` and unknown (absent) actions throw; SCALE
and RESTART call the adapter. Returns the outcome and the adapter calls
issued. -/
def executeCommand (ad : AdapterOracle) (cmd : ScheduledCommand) :
    Except String Unit × List AdapterCall :=
  match cmd.parsed.action with
  | some .SCALE =>
    match cmd.parsed.targetReplicas with
    | none => (.error ("SCALE command missing targetReplicas: " ++ cmd.id), [])
    | some r => (ad.scaleOutcome r, [.scaleCall r])
  | some .RESTART => (ad.restartOutcome, [.restartCall])
  | none => (.error ("Unknown EXECUTE action: undefined for command " ++ cmd.id), [])

/-- `workerStatus` values of the execution-state registry. -/
inductive WorkerStatus
  | idle
  | executing
deriving DecidableEq, Repr

/-- `mutexStatus` values of the execution-state registry. -/
inductive MutexStatus
  | free
  | locked
deriving DecidableEq, Repr

/-- The sanitized command view `{action, requestedReplicas}`. -/
structure SanitizedCommand where
  action : String
  requestedReplicas : Option Nat
deriving DecidableEq, Repr

/-- The execution-state registry (lib/observability/executionState.ts),
restricted to the fields the claims mention. -/
structure Registry where
  workerStatus : WorkerStatus
  mutexStatus : MutexStatus
  currentCommand : Option SanitizedCommand
  queueLength : Nat
deriving DecidableEq, Repr

/-- The registry at process start. -/
def initRegistry : Registry := ⟨.idle, .free, none, 0⟩

/-- `setWorkerStatus`. -/
def setWorkerStatus (r : Registry) (s : WorkerStatus) : Registry :=
  { r with workerStatus := s }

/-- `setMutexStatus`. -/
def setMutexStatus (r : Registry) (s : MutexStatus) : Registry :=
  { r with mutexStatus := s }

/-- `setCurrentCommand`. -/
def setCurrentCommand (r : Registry) (c : Option SanitizedCommand) : Registry :=
  { r with currentCommand := c }

/-- `setQueueLength`. -/
def setQueueLength (r : Registry) (n : Nat) : Registry :=
  { r with queueLength := n }

/-- The worker-visible system state during one run-loop iteration: the
`results` map, the `executionLog`, the `isExecuting` flag, the mutex's
locked flag, a count of `mutex.release()` calls, the adapter calls issued
so far, and the execution-state registry. -/
structure SysState where
  results : String → Option CommandResult
  execLog : List String
  isExecuting : Bool
  mutexLocked : Bool
  releaseCount : Nat
  adapterCalls : List AdapterCall
  registry : Registry

/-- `results.set(id, v)` on the results map. -/
def setResult (rs : String → Option CommandResult) (k : String)
    (v : CommandResult) : String → Option CommandResult :=
  fun x => if x = k then some v else rs x

/-- System state at worker start. -/
def initSysState : SysState :=
  ⟨fun _ => none, [], false, false, 0, [], initRegistry⟩

/-- The run-loop iteration on an EXECUTE command, up to the point just
after the guarded scope is entered: the result is set to RUNNING, the
mutex is acquired (the single worker finds it free, so `acquire` locks it
immediately), `isExecuting` is set and the start is logged. The registry
is not touched: the worker performs no registry calls. -/
def iterMid (s : SysState) (cmd : ScheduledCommand) : SysState :=
  { s with
    results := setResult s.results cmd.id ⟨cmd.id, .RUNNING, none, none⟩
    mutexLocked := true
    isExecuting := true
    execLog := s.execLog ++ ["START:" ++ cmd.id] }

/-- The complete run-loop iteration on an EXECUTE command: after
`iterMid`, the guarded try/catch/finally runs `executeCommand`; on success
the result is SUCCESS with a completion timestamp, on any thrown error the
result is FAILED with the error's message and a completion timestamp and
nothing is rethrown; the `finally` clause always clears `isExecuting` and
releases the mutex (no waiters, so `release` clears the locked flag)
exactly once, and the loop proceeds. -/
def iterFinal (s : SysState) (cmd : ScheduledCommand) (ad : AdapterOracle)
    (now : Nat) : SysState :=
  let m := iterMid s cmd
  let out := executeCommand ad cmd
  let m2 := { m with adapterCalls := m.adapterCalls ++ out.2 }
  let m3 :=
    match out.1 with
    | .ok _ =>
      { m2 with
        execLog := m2.execLog ++ ["END:" ++ cmd.id]
        results := setResult m2.results cmd.id ⟨cmd.id, .SUCCESS, none, some now⟩ }
    | .error e =>
      { m2 with
        execLog := m2.execLog ++ ["ERROR:" ++ cmd.id]
        results := setResult m2.results cmd.id ⟨cmd.id, .FAILED, some e, some now⟩ }
  { m3 with
    isExecuting := false
    mutexLocked := false
    releaseCount := m3.releaseCount + 1 }

/-! ## Worker lifecycle and bootstrap (lib/bootstrap/workerBootstrap.ts) -/

/-- Worker lifecycle state: the `running` intake flag and the command
currently in flight, if any. -/
structure LifeState where
  running : Bool
  inFlight : Option String
deriving DecidableEq, Repr

/-- `SchedulerWorker.start`: idempotent. -/
def startWorker (w : LifeState) : LifeState :=
  if w.running then w else { w with running := true }

/-- `SchedulerWorker.stop`: clear the running flag; the loop exits after
the in-flight command completes. -/
def stopWorker (w : LifeState) : LifeState :=
  { w with running := false }

/-- Modelled from the spec: `SchedulerWorker.gracefulShutdown` is not
present in the sources (only its caller, `setupShutdownHandlers` in
workerBootstrap.ts, is); per the spec it stops intake of new commands,
lets the in-flight command complete, and returns even if the worker is not
idle. -/
def gracefulShutdown (w : LifeState) : LifeState :=
  { w with running := false }

/-- One intake poll of the run loop: `while (this.running)` guards the
dequeue, so a stopped worker takes nothing from the queue. -/
def intakeStep (w : LifeState) (q : List ScheduledCommand) :
    Option ScheduledCommand × List ScheduledCommand :=
  if w.running then dequeue q else (none, q)

/-- The observable steps of the bootstrap's `handleShutdown`. -/
inductive BootAction
  | logReceived
  | callGracefulShutdown
  | logComplete
  | exitProcess
deriving DecidableEq, Repr

/-- `handleShutdown`: log, await `gracefulShutdown()` on the worker
instance, log, then `process.exit(0)`. -/
def handleShutdownActions : List BootAction :=
  [.logReceived, .callGracefulShutdown, .logComplete, .exitProcess]

/-- `setupShutdownHandlers` registers `handleShutdown` for SIGINT and
SIGTERM. -/
def shutdownHandlers : List (String × List BootAction) :=
  [("SIGINT", handleShutdownActions), ("SIGTERM", handleShutdownActions)]

/-! ## Concrete sample inputs used by witnesses and counterexamples -/

/-- A parsed EXECUTE/SCALE command payload. -/
def parsedScale3 : ParsedCommand :=
  ⟨.EXECUTE, some .SCALE, some 3, "scale loadlab to 3".toList⟩

/-- An enqueue-then-dequeue counterexample command: low priority, early
timestamp. -/
def cexA : ScheduledCommand := ⟨"a", "ea", "u", 3, 0, parsedScale3⟩

/-- An enqueue-then-dequeue counterexample command: high priority, later
timestamp. -/
def cexB : ScheduledCommand := ⟨"b", "eb", "u", 1, 1, parsedScale3⟩

/-- A concrete scheduled EXECUTE/SCALE command. -/
def cmdScale3 : ScheduledCommand := ⟨"c1", "e1", "u", 2, 0, parsedScale3⟩

/-- A concrete EXECUTE command with no action (fail-closed dispatch). -/
def cmdNoAction : ScheduledCommand :=
  ⟨"c9", "e9", "u", 2, 0, ⟨.EXECUTE, none, none, "x".toList⟩⟩

/-- An adapter oracle whose mutations succeed but whose status would
report 2 replicas (the verification-mismatch stub of the spec's
scenario 5). -/
def adMismatch : AdapterOracle := ⟨fun _ => .ok (), .ok (), 2⟩

/-- The chat message used by the quota scenarios. -/
def scaleMsg : List Char := "scale loadlab to 3".toList

/-- Gate run 1 of the quota-exhaustion scenario: fresh quota map. -/
def g1 : GateOut := gatePost emptyQuota "u1" none scaleMsg 10 "c1" "e1" []

/-- Gate run 2 of the quota-exhaustion scenario. -/
def g2 : GateOut := gatePost g1.qm "u1" none scaleMsg 11 "c2" "e2" g1.queue

/-- Gate run 3 of the quota-exhaustion scenario. -/
def g3 : GateOut := gatePost g2.qm "u1" none scaleMsg 12 "c3" "e3" g2.queue

/-- Gate run 4 of the quota-exhaustion scenario. -/
def g4 : GateOut := gatePost g3.qm "u1" none scaleMsg 13 "c4" "e4" g3.queue

/-- A quota map in which user `u1` has two used EXECUTE commands. -/
def qmUsedTwo : QuotaMap := fun x => if x = "u1" then 2 else 0

/-! ## Helper lemmas -/

/-- Every token produced by the tokenizer is a contiguous substring of the
accumulated prefix plus the remaining input. -/
theorem mem_wordsAux_isInfix :
    ∀ (l : List Char) (acc w : List Char), w ∈ wordsAux l acc → w <:+: (acc.reverse ++ l) := by
  intro l
  induction l with
  | nil =>
    intro acc w hw
    simp only [wordsAux] at hw
    by_cases hacc : acc.isEmpty
    · rw [if_pos hacc] at hw
      simp at hw
    · rw [if_neg hacc] at hw
      simp at hw
      subst hw
      simp
  | cons c cs ih =>
    intro acc w hw
    simp only [wordsAux] at hw
    by_cases hws : isWS c = true
    · rw [if_pos hws] at hw
      by_cases hacc : acc.isEmpty
      · rw [if_pos hacc] at hw
        have hacc2 : acc = [] := by
          cases acc with
          | nil => rfl
          | cons a as => simp [List.isEmpty] at hacc
        subst hacc2
        have h1 := ih [] w hw
        simp only [List.reverse_nil, List.nil_append] at h1 ⊢
        exact List.infix_cons h1
      · rw [if_neg hacc] at hw
        rcases List.mem_cons.mp hw with rfl | hw2
        · exact (List.prefix_append _ _).isInfix
        · have h1 := ih [] w hw2
          simp only [List.reverse_nil, List.nil_append] at h1
          obtain ⟨s, t, hst⟩ := List.infix_cons (a := c) h1
          exact ⟨acc.reverse ++ s, t, by rw [← hst]; simp [List.append_assoc]⟩
    · rw [if_neg hws] at hw
      have h1 := ih (c :: acc) w hw
      simpa [List.append_assoc] using h1

/-- A whitespace token of `l` is a contiguous substring of `l`. -/
theorem mem_wordsCL_isInfix (l w : List Char) (h : w ∈ wordsCL l) : w <:+: l := by
  have h1 := mem_wordsAux_isInfix l [] w h
  simpa using h1

/-- The strict key order implies the key order. -/
theorem keyLt_le (a b : ScheduledCommand) : keyLt a b → keyLe a b := by
  unfold keyLt keyLe
  omega

/-- Totality: a command not strictly after another is not before it. -/
theorem keyLe_total_of_not_lt (c b : ScheduledCommand) : ¬ keyLt c b → keyLe b c := by
  unfold keyLt keyLe
  omega

/-- Strict-then-weak transitivity of the key order. -/
theorem keyLt_trans_keyLe (a b c : ScheduledCommand) :
    keyLt a b → keyLe b c → keyLe a c := by
  unfold keyLt keyLe
  omega

/-- Membership after a stable insert. -/
theorem mem_insertCmd (c x : ScheduledCommand) :
    ∀ l : List ScheduledCommand, x ∈ insertCmd c l ↔ x = c ∨ x ∈ l := by
  intro l
  induction l with
  | nil => simp [insertCmd]
  | cons b l ih =>
    simp only [insertCmd]
    by_cases h : keyLt c b
    · rw [if_pos h]
      simp [List.mem_cons]
    · rw [if_neg h]
      simp [List.mem_cons, ih]
      tauto

/-- Stable insert preserves sortedness by the key order. -/
theorem pairwise_insertCmd (c : ScheduledCommand) :
    ∀ l : List ScheduledCommand, l.Pairwise keyLe → (insertCmd c l).Pairwise keyLe := by
  intro l
  induction l with
  | nil =>
    intro _
    simp [insertCmd]
  | cons b l ih =>
    intro h
    rw [List.pairwise_cons] at h
    obtain ⟨hb, hl⟩ := h
    by_cases hcb : keyLt c b
    · simp only [insertCmd, if_pos hcb]
      refine List.Pairwise.cons ?_ (List.Pairwise.cons hb hl)
      intro x hx
      rcases List.mem_cons.mp hx with rfl | hx2
      · exact keyLt_le _ _ hcb
      · exact keyLt_trans_keyLe _ _ _ hcb (hb x hx2)
    · simp only [insertCmd, if_neg hcb]
      refine List.Pairwise.cons ?_ (ih hl)
      intro x hx
      rcases (mem_insertCmd c x l).mp hx with rfl | hx2
      · exact keyLe_total_of_not_lt _ _ hcb
      · exact hb x hx2

/-- The queue's stable sort produces a list sorted by the key order. -/
theorem pairwise_sortCmds (l : List ScheduledCommand) :
    (sortCmds l).Pairwise keyLe := by
  suffices h : ∀ (l2 acc : List ScheduledCommand), acc.Pairwise keyLe →
      (l2.foldl (fun acc c => insertCmd c acc) acc).Pairwise keyLe by
    exact h l [] (by simp)
  intro l2
  induction l2 with
  | nil =>
    intro acc h
    simpa using h
  | cons c l2 ih =>
    intro acc h
    exact ih _ (pairwise_insertCmd c acc h)

/-- The queue state reached by any operation sequence is sorted. -/
theorem runQueue_pairwise (ops : List QueueOp) :
    (runQueue ops).state.Pairwise keyLe := by
  suffices h : ∀ (ops2 : List QueueOp) (t : QueueTrace), t.state.Pairwise keyLe →
      (ops2.foldl queueStep t).state.Pairwise keyLe by
    exact h ops ⟨[], []⟩ (by simp)
  intro ops2
  induction ops2 with
  | nil =>
    intro t h
    simpa using h
  | cons op ops2 ih =>
    intro t h
    refine ih _ ?_
    cases op with
    | enq c => exact pairwise_sortCmds _
    | deq =>
      cases hs : t.state with
      | nil => simp [queueStep, dequeue, hs]
      | cons x xs =>
        simp only [queueStep, dequeue, hs]
        rw [hs] at h
        exact (List.pairwise_cons.mp h).2

/-- Stable insert adds one element. -/
theorem length_insertCmd (c : ScheduledCommand) :
    ∀ l : List ScheduledCommand, (insertCmd c l).length = l.length + 1 := by
  intro l
  induction l with
  | nil => simp [insertCmd]
  | cons b l ih =>
    simp only [insertCmd]
    by_cases h : keyLt c b
    · rw [if_pos h]
      simp
    · rw [if_neg h]
      simp [ih]

/-- The queue's stable sort preserves length. -/
theorem length_sortCmds (l : List ScheduledCommand) :
    (sortCmds l).length = l.length := by
  suffices h : ∀ (l2 acc : List ScheduledCommand),
      (l2.foldl (fun acc c => insertCmd c acc) acc).length = acc.length + l2.length by
    simpa using h l []
  intro l2
  induction l2 with
  | nil =>
    intro acc
    simp
  | cons c l2 ih =>
    intro acc
    simp [ih, length_insertCmd]
    omega

/-- Enqueue grows the queue by one. -/
theorem length_enqueue (q : List ScheduledCommand) (c : ScheduledCommand) :
    (enqueue q c).length = q.length + 1 := by
  simp [enqueue, length_sortCmds]

/-- The queue's stable sort preserves membership. -/
theorem mem_sortCmds (x : ScheduledCommand) (l : List ScheduledCommand) :
    x ∈ sortCmds l ↔ x ∈ l := by
  suffices h : ∀ (l2 acc : List ScheduledCommand),
      (x ∈ l2.foldl (fun acc c => insertCmd c acc) acc ↔ x ∈ acc ∨ x ∈ l2) by
    simpa using h l []
  intro l2
  induction l2 with
  | nil =>
    intro acc
    simp
  | cons c l2 ih =>
    intro acc
    simp only [List.foldl_cons, ih, mem_insertCmd, List.mem_cons]
    tauto

/-- An enqueued command is in the queue. -/
theorem mem_enqueue (q : List ScheduledCommand) (c : ScheduledCommand) :
    c ∈ enqueue q c := by
  rw [enqueue, mem_sortCmds]
  simp

/-- The mutex invariant holds initially. -/
theorem mutexInv_init : MutexInv initMutex := by
  simp [MutexInv, initMutex]

/-- Each mutex operation preserves the mutex invariant. -/
theorem mutexInv_step (s : MutexState) (op : MutexOp) (h : MutexInv s) :
    MutexInv (mutexStep s op) := by
  obtain ⟨h1, h2, h3, h4⟩ := h
  cases op with
  | acq c =>
    cases hl : s.locked with
    | true =>
      refine ⟨?_, ?_, ?_, ?_⟩ <;> simp [mutexStep, acquire, hl]
      · exact h1
      · simpa [hl] using h2
      · rw [← List.append_assoc, h4]
    | false =>
      have hh : s.holders = [] := by
        cases hhs : s.holders with
        | nil => rfl
        | cons a as =>
          have : s.locked = true := h2.mpr (by simp [hhs])
          rw [hl] at this
          cases this
      have hw : s.waiters = [] := h3 hl
      have h4b : s.granted = s.arrivals := by simpa [hw] using h4
      refine ⟨?_, ?_, ?_, ?_⟩ <;> simp [mutexStep, acquire, hl, hh, hw, h4b]
  | rel =>
    cases hw : s.waiters with
    | nil =>
      have hd : s.holders.drop 1 = [] := by
        cases hhs : s.holders with
        | nil => rfl
        | cons a as =>
          rw [hhs] at h1
          simp at h1
          simp [h1]
      refine ⟨?_, ?_, ?_, ?_⟩ <;> simp [mutexStep, release, hw, hd]
      simpa [hw] using h4
    | cons w ws =>
      have hl : s.locked = true := by
        cases hlc : s.locked with
        | false =>
          have := h3 hlc
          rw [hw] at this
          cases this
        | true => rfl
      have hh : ∃ a, s.holders = [a] := by
        cases hhs : s.holders with
        | nil =>
          have := h2.mp hl
          rw [hhs] at this
          simp at this
        | cons a as =>
          rw [hhs] at h1
          simp at h1
          exact ⟨a, by simp [h1]⟩
      obtain ⟨a, ha⟩ := hh
      refine ⟨?_, ?_, ?_, ?_⟩ <;> simp [mutexStep, release, hw, ha, hl]
      rw [← h4, hw]

/-- Any reachable mutex state satisfies the mutex invariant. -/
theorem mutexInv_run (ops : List MutexOp) : MutexInv (runMutex ops) := by
  suffices h : ∀ (ops2 : List MutexOp) (s : MutexState), MutexInv s →
      MutexInv (ops2.foldl mutexStep s) by
    exact h ops initMutex mutexInv_init
  intro ops2
  induction ops2 with
  | nil =>
    intro s h
    simpa using h
  | cons op ops2 ih =>
    intro s h
    exact ih _ (mutexInv_step s op h)

/-- A user whose derived role is FREE has remaining quota. -/
theorem deriveRole_free_quota (mr : Option String) (used : Nat)
    (h : deriveRole mr used = .FREE) : getQuotaRemaining used ≠ 0 := by
  unfold deriveRole at h
  by_cases h1 : mr = some "ADMIN"
  · rw [if_pos h1] at h
    cases h
  · rw [if_neg h1] at h
    by_cases h2 : used < FREE_QUOTA_LIMIT
    · unfold getQuotaRemaining FREE_QUOTA_LIMIT
      unfold FREE_QUOTA_LIMIT at h2
      omega
    · rw [if_neg h2] at h
      cases h

/-- Incrementing a user's quota raises that user's used count by one. -/
theorem getUsed_incrementQuota (qm : QuotaMap) (u : String) :
    getUsed (incrementQuota qm u) u = getUsed qm u + 1 := by
  simp [incrementQuota, getUsed, setUsed]

/-- The `finally` clause of the worker iteration: on every outcome the
mutex is released exactly once, `isExecuting` is cleared, and the registry
is untouched. -/
theorem iterFinal_always (s : SysState) (cmd : ScheduledCommand)
    (ad : AdapterOracle) (now : Nat) :
    (iterFinal s cmd ad now).releaseCount = s.releaseCount + 1 ∧
    (iterFinal s cmd ad now).mutexLocked = false ∧
    (iterFinal s cmd ad now).isExecuting = false ∧
    (iterFinal s cmd ad now).registry = s.registry := by
  cases h : (executeCommand ad cmd).1 <;> simp [iterFinal, iterMid, h]

/-! ## Claim theorems -/

/-- Claim C1, counterexample: the claim quantifies over any two commands
with A dequeued before B, but a command enqueued only after A has been
dequeued can carry a smaller `(priority, timestamp)` key. Here `cexA`
(priority 3, timestamp 0) is enqueued and dequeued, then `cexB`
(priority 1, timestamp 1) is enqueued and dequeued: A precedes B in the
dequeue order yet its key is strictly greater. -/
theorem C1_counterexample :
    (runQueue [.enq cexA, .deq, .enq cexB, .deq]).outs = [some cexA, some cexB] ∧
    ¬ keyLe cexA cexB := by
  decide

/-- Claim C1, amended: for every sequence of enqueue and dequeue
operations, when a command A is dequeued every command B still in the
queue at that moment satisfies `(A.priority, A.timestamp) ≤
(B.priority, B.timestamp)` lexicographically (smaller priority number
first, FIFO by timestamp within a priority class), and dequeue on an
empty queue returns nothing. -/
theorem C1_theorem (ops : List QueueOp) :
    (∀ A rest, dequeue (runQueue ops).state = (some A, rest) →
      ∀ B ∈ rest, keyLe A B) ∧
    dequeue ([] : List ScheduledCommand) = (none, []) := by
  constructor
  · intro A rest hd B hB
    have hp := runQueue_pairwise ops
    cases hs : (runQueue ops).state with
    | nil =>
      rw [hs] at hd
      simp [dequeue] at hd
    | cons x xs =>
      rw [hs] at hd hp
      simp only [dequeue] at hd
      obtain ⟨hA, hrest⟩ := Prod.mk.injEq .. ▸ hd
      have hA2 : x = A := by injection hd with h1 h2; injection h1
      have hrest2 : xs = rest := by injection hd
      subst hA2
      subst hrest2
      exact (List.pairwise_cons.mp hp).1 B hB
  · rfl

/-- Claim C1, witness for the amended theorem at a concrete trace:
after enqueueing `cexA` then `cexB`, the dequeued head `cexB` key-precedes
the remaining `cexA`. -/
theorem C1_witness :
    keyLe cexB cexA ∧ dequeue ([] : List ScheduledCommand) = (none, []) :=
  ⟨(C1_theorem [.enq cexA, .enq cexB]).1 cexB [cexA] (by decide) cexA (by decide),
   (C1_theorem []).2⟩

/-- Claim C2: for every sequence of acquire and release operations on the
mutex: at most one caller holds the lock (`holders` has length at most
one); acquire on a free lock takes it in one step (the very next state is
locked with the caller as sole holder); release with a non-empty waiter
list transfers the lock to the oldest waiter with the locked flag still
true (no unlocked window); release with no waiters marks the lock free;
and the grant order extends the arrival order of acquire calls — the
grants so far followed by the still-pending waiters equal the acquire
calls in arrival order, so waiters are resumed in strict FIFO order. -/
theorem C2_theorem (ops : List MutexOp) :
    (runMutex ops).holders.length ≤ 1 ∧
    (runMutex ops).granted ++ (runMutex ops).waiters = (runMutex ops).arrivals ∧
    (∀ c, (runMutex ops).locked = false →
      (acquire (runMutex ops) c).locked = true ∧
      (acquire (runMutex ops) c).holders = [c]) ∧
    (∀ w ws, (runMutex ops).waiters = w :: ws →
      (release (runMutex ops)).locked = true ∧
      (release (runMutex ops)).holders = [w] ∧
      (release (runMutex ops)).waiters = ws) ∧
    ((runMutex ops).waiters = [] → (release (runMutex ops)).locked = false) := by
  obtain ⟨h1, h2, h3, h4⟩ := mutexInv_run ops
  refine ⟨h1, h4, ?_, ?_, ?_⟩
  · intro c hl
    have hh : (runMutex ops).holders = [] := by
      cases hhs : (runMutex ops).holders with
      | nil => rfl
      | cons a as =>
        have := h2.mpr (by simp [hhs])
        rw [hl] at this
        cases this
    constructor <;> simp [acquire, hl, hh]
  · intro w ws hw
    have hl : (runMutex ops).locked = true := by
      cases hlc : (runMutex ops).locked with
      | false =>
        have := h3 hlc
        rw [hw] at this
        cases this
      | true => rfl
    have hh : ∃ a, (runMutex ops).holders = [a] := by
      cases hhs : (runMutex ops).holders with
      | nil =>
        have := h2.mp hl
        rw [hhs] at this
        simp at this
      | cons a as =>
        rw [hhs] at h1
        simp at h1
        exact ⟨a, by simp [h1]⟩
    obtain ⟨a, ha⟩ := hh
    refine ⟨?_, ?_, ?_⟩ <;> simp [release, hw, ha, hl]
  · intro hw
    simp [release, hw]

/-- Claim C2, witness at a concrete trace: after three acquires and one
release the waiter list is `[3]`, releasing again transfers to waiter 3
with the lock still held, and acquiring a freshly released mutex locks it
for the new caller. -/
theorem C2_witness :
    (runMutex [.acq 1, .acq 2, .acq 3, .rel]).waiters = [3] ∧
    (release (runMutex [.acq 1, .acq 2, .acq 3, .rel])).locked = true ∧
    (release (runMutex [.acq 1, .acq 2, .acq 3, .rel])).holders = [3] ∧
    (acquire (runMutex [.acq 1, .rel]) 7).holders = [7] :=
  ⟨by decide,
   ((C2_theorem [.acq 1, .acq 2, .acq 3, .rel]).2.2.2.1 3 [] (by decide)).1,
   ((C2_theorem [.acq 1, .acq 2, .acq 3, .rel]).2.2.2.1 3 [] (by decide)).2.1,
   ((C2_theorem [.acq 1, .rel]).2.2.1 7 (by decide)).2⟩

/-- Claim C3: when the dispatched adapter call (or the dispatch itself —
a SCALE with missing targetReplicas, or an absent action) throws, the
worker records the command FAILED with the error's message and a
completion timestamp, releases the mutex (and does so exactly once on
every exit path of the guarded scope, also on success), clears
`isExecuting`, and the iteration returns normally so the loop continues
(the failure is never rethrown: the iteration is a total function on
every adapter outcome). -/
theorem C3_theorem (s : SysState) (cmd : ScheduledCommand) (ad : AdapterOracle)
    (now : Nat) (e : String)
    (ht : cmd.parsed.ctype = .EXECUTE)
    (he : (executeCommand ad cmd).1 = .error e) :
    (iterFinal s cmd ad now).results cmd.id =
      some ⟨cmd.id, .FAILED, some e, some now⟩ ∧
    (iterFinal s cmd ad now).mutexLocked = false ∧
    (iterFinal s cmd ad now).isExecuting = false ∧
    (iterFinal s cmd ad now).releaseCount = s.releaseCount + 1 ∧
    (∀ ad2 now2, (iterFinal s cmd ad2 now2).mutexLocked = false ∧
      (iterFinal s cmd ad2 now2).releaseCount = s.releaseCount + 1) ∧
    (iterFinal s cmd ad now).execLog =
      s.execLog ++ ["START:" ++ cmd.id, "ERROR:" ++ cmd.id] := by
  refine ⟨?_, (iterFinal_always s cmd ad now).2.1,
    (iterFinal_always s cmd ad now).2.2.1, (iterFinal_always s cmd ad now).1,
    fun ad2 now2 => ⟨(iterFinal_always s cmd ad2 now2).2.1,
      (iterFinal_always s cmd ad2 now2).1⟩, ?_⟩
  · simp [iterFinal, iterMid, he, setResult]
  · simp [iterFinal, iterMid, he]

/-- Claim C3, witness: an EXECUTE command with no action fails dispatch
with the fail-closed unknown-action error and is recorded FAILED with the
mutex released. -/
theorem C3_witness :
    cmdNoAction.parsed.ctype = CommandType.EXECUTE ∧
    (iterFinal initSysState cmdNoAction adMismatch 7).results cmdNoAction.id =
      some ⟨cmdNoAction.id, .FAILED,
        some ("Unknown EXECUTE action: undefined for command " ++ cmdNoAction.id),
        some 7⟩ ∧
    (iterFinal initSysState cmdNoAction adMismatch 7).mutexLocked = false :=
  ⟨by decide,
   (C3_theorem initSysState cmdNoAction adMismatch 7 _ (by decide) rfl).1,
   (C3_theorem initSysState cmdNoAction adMismatch 7 _ (by decide) rfl).2.1⟩

/-- Claim C4: `scaleDeployment` rejects every replica count that is not an
integer or lies outside `[MIN_REPLICAS, MAX_REPLICAS]` with a
KubernetesError before issuing any outbound call, and for every integer
count within bounds it issues exactly one JSON patch replacing
`/spec/replicas` with that value. -/
theorem C4_theorem (cluster : JsonPatch → Except AdapterFailure Unit) (r : ℚ) :
    ((r.den ≠ 1 ∨ r < MIN_REPLICAS ∨ r > MAX_REPLICAS) →
      (∃ m, (scaleDeployment cluster r).1 = .error (.kubernetesError m)) ∧
      (scaleDeployment cluster r).2 = []) ∧
    (r.den = 1 → MIN_REPLICAS ≤ r → r ≤ MAX_REPLICAS →
      (scaleDeployment cluster r).2 = [⟨"replace", "/spec/replicas", r⟩]) := by
  constructor
  · intro h
    by_cases hd : r.den = 1
    · have hb : r < MIN_REPLICAS ∨ r > MAX_REPLICAS := by
        rcases h with h | h
        · exact absurd hd h
        · exact h
      unfold scaleDeployment
      rw [if_neg (by simpa using hd), if_pos hb]
      exact ⟨⟨_, rfl⟩, rfl⟩
    · unfold scaleDeployment
      rw [if_pos hd]
      exact ⟨⟨_, rfl⟩, rfl⟩
  · intro hd h1 h5
    unfold scaleDeployment
    rw [if_neg (by simpa using hd),
      if_neg (by rw [not_or]; exact ⟨not_lt.mpr h1, not_lt.mpr h5⟩)]

/-- Claim C4, witness: 7 is rejected with no outbound call; 3 produces
exactly the replace patch. -/
theorem C4_witness :
    (∃ m, (scaleDeployment (fun _ => .ok ()) 7).1 = .error (.kubernetesError m)) ∧
    (scaleDeployment (fun _ => .ok ()) 7).2 = [] ∧
    (scaleDeployment (fun _ => .ok ()) 3).2 = [⟨"replace", "/spec/replicas", 3⟩] :=
  ⟨((C4_theorem (fun _ => .ok ()) 7).1 (by decide)).1,
   ((C4_theorem (fun _ => .ok ()) 7).1 (by decide)).2,
   (C4_theorem (fun _ => .ok ()) 3).2 (by decide) (by decide) (by decide)⟩

/-- Claim C5, counterexample: on the code, a fourth consecutive EXECUTE
from the same non-admin user is not rejected with 429: after three
accepted commands the role is re-derived as NORMAL (`deriveRole` returns
NORMAL once used reaches the limit), so the fourth request is accepted at
priority 3 (HTTP 200) and enqueued — the queue grows to four commands.
Responses 1–3 do report quotaRemaining 2, 1, 0. -/
theorem C5_counterexample :
    g1.resp = .accepted 2 (some 2) 1 .FREE ∧
    g2.resp = .accepted 2 (some 1) 2 .FREE ∧
    g3.resp = .accepted 2 (some 0) 3 .FREE ∧
    g4.resp = .accepted 3 none 4 .NORMAL ∧
    gateHttpStatus g4.resp = 200 ∧
    g4.queue.length = 4 := by
  decide

/-- Claim C5, amended: the first three accepted EXECUTE responses of a
FREE user report quotaRemaining 2, 1 and 0; but the next EXECUTE is not
rejected — it is accepted at priority 3 with role NORMAL and enqueued,
because the gate's QuotaExceeded branch requires a FREE role together
with zero remaining quota, while a derived FREE role always implies
remaining quota: the 429 QuotaExceeded response is unreachable. -/
theorem C5_theorem :
    (g1.resp = .accepted 2 (some 2) 1 .FREE ∧
     g2.resp = .accepted 2 (some 1) 2 .FREE ∧
     g3.resp = .accepted 2 (some 0) 3 .FREE ∧
     g4.resp = .accepted 3 none 4 .NORMAL) ∧
    (∀ qm u mr msg now cid eid q,
      (gatePost qm u mr msg now cid eid q).resp ≠ .quotaExceeded) := by
  constructor
  · exact ⟨by decide, by decide, by decide, by decide⟩
  · intro qm u mr msg now cid eid q
    by_cases hq : deriveRole mr (getUsed qm u) = .FREE ∧
        getQuotaRemaining (getUsed qm u) = 0
    · exact absurd hq.2 (deriveRole_free_quota mr (getUsed qm u) hq.1)
    · intro heq
      simp only [gatePost] at heq
      split_ifs at heq <;> simp_all

/-- Claim C5, witness for the amended theorem: a concrete gate call never
answers QuotaExceeded. -/
theorem C5_witness :
    (gatePost emptyQuota "w1" none scaleMsg 0 "c" "e" []).resp ≠ .quotaExceeded :=
  C5_theorem.2 emptyQuota "w1" none scaleMsg 0 "c" "e" []

/-- Claim C6: the priority mapping is ADMIN to 1, FREE with remaining
quota to 2, otherwise 3, and the gate assigns priority from the
pre-increment quota view: a non-admin user whose used count is 2 at
request time has role FREE and the accepted EXECUTE command (the third)
is assigned priority 2, reported with quotaRemaining 0, enqueued with
priority 2, and only then is the used count incremented to 3. -/
theorem C6_theorem (qm : QuotaMap) (mr : Option String) (now : Nat)
    (cid eid : String) (q : List ScheduledCommand)
    (h2 : getUsed qm "u1" = 2) (hmr : mr ≠ some "ADMIN") :
    (∀ used, getPriorityForUser .ADMIN used = 1) ∧
    (∀ used, used < FREE_QUOTA_LIMIT → getPriorityForUser .FREE used = 2) ∧
    (∀ used, FREE_QUOTA_LIMIT ≤ used → getPriorityForUser .FREE used = 3) ∧
    (∀ used, getPriorityForUser .NORMAL used = 3) ∧
    (gatePost qm "u1" mr scaleMsg now cid eid q).resp =
      .accepted 2 (some 0) (q.length + 1) .FREE ∧
    (⟨cid, eid, "u1", 2, now, parseCommand scaleMsg⟩ : ScheduledCommand) ∈
      (gatePost qm "u1" mr scaleMsg now cid eid q).queue ∧
    getUsed (gatePost qm "u1" mr scaleMsg now cid eid q).qm "u1" = 3 := by
  have h2q : qm "u1" = 2 := h2
  have hps : parseCommand scaleMsg = ⟨.EXECUTE, some .SCALE, some 3, scaleMsg⟩ := by
    decide
  have hrole2 : deriveRole mr 2 = .FREE := by
    unfold deriveRole
    rw [if_neg hmr]
    rfl
  refine ⟨?_, ?_, ?_, ?_, ?_, ?_, ?_⟩
  · intro used
    simp [getPriorityForUser]
  · intro used hu
    unfold getPriorityForUser
    rw [if_neg (by simp), if_pos ⟨rfl, by unfold getQuotaRemaining; omega⟩]
  · intro used hu
    unfold getPriorityForUser
    rw [if_neg (by simp), if_neg (by
      rintro ⟨-, hg⟩
      unfold getQuotaRemaining at hg
      omega)]
  · intro used
    simp [getPriorityForUser]
  · simp only [gatePost, hps, getUsed, h2q, hrole2]
    simp [getPriorityForUser, getQuotaRemaining, FREE_QUOTA_LIMIT, outOfBounds,
      length_enqueue]
  · have hmem := mem_enqueue q ⟨cid, eid, "u1", 2, now,
      (⟨.EXECUTE, some .SCALE, some 3, scaleMsg⟩ : ParsedCommand)⟩
    simp only [gatePost, hps, getUsed, h2q, hrole2]
    simp [getPriorityForUser, getQuotaRemaining, FREE_QUOTA_LIMIT, outOfBounds, hps]
    simpa using hmem
  · simp only [gatePost, hps, getUsed, h2q, hrole2]
    simp [getPriorityForUser, getQuotaRemaining, FREE_QUOTA_LIMIT, outOfBounds,
      incrementQuota, setUsed, getUsed, h2q]

/-- Claim C6, witness: with a quota map recording two used commands for
user u1 and no admin metadata, the gate accepts at priority 2 with
quotaRemaining 0 and the stored used count becomes 3. -/
theorem C6_witness :
    (gatePost qmUsedTwo "u1" none scaleMsg 5 "c3" "e3" []).resp =
      .accepted 2 (some 0) 1 .FREE ∧
    getUsed (gatePost qmUsedTwo "u1" none scaleMsg 5 "c3" "e3" []).qm "u1" = 3 := by
  have h := C6_theorem qmUsedTwo none 5 "c3" "e3" [] (by decide) (by decide)
  exact ⟨by simpa using h.2.2.2.2.1, h.2.2.2.2.2.2⟩

/-- Claim C7: every input whose trimmed, case-folded text equals `help` or
contains the whitespace token `help` is classified HELP by the first
parser rule, and the policy gate answers it synchronously without
enqueueing anything. -/
theorem C7_theorem (input : List Char) (qm : QuotaMap) (u : String)
    (mr : Option String) (now : Nat) (cid eid : String)
    (q : List ScheduledCommand)
    (h : "help".toList ∈ wordsCL (rawTextOf input) ∨ rawTextOf input = "help".toList) :
    (parseCommand input).ctype = .HELP ∧
    (gatePost qm u mr input now cid eid q).resp = .helpResp ∧
    (gatePost qm u mr input now cid eid q).queue = q := by
  have hcond : rawTextOf input = "help".toList ∨
      hasSub (rawTextOf input) ("help".toList) := by
    rcases h with h | h
    · exact Or.inr (mem_wordsCL_isInfix _ _ h)
    · exact Or.inl h
  have hp : parseCommand input = ⟨.HELP, none, none, rawTextOf input⟩ := by
    unfold parseCommand
    rw [if_pos hcond]
  refine ⟨by rw [hp], ?_, ?_⟩ <;> simp [gatePost, hp]

/-- Claim C7, witness: the input `help me scale to 3` contains the token
`help`, is classified HELP, and is not enqueued. -/
theorem C7_witness :
    (parseCommand ("help me scale to 3".toList)).ctype = .HELP ∧
    (gatePost emptyQuota "u" none ("help me scale to 3".toList) 0 "c" "e" []).resp =
      .helpResp ∧
    (gatePost emptyQuota "u" none ("help me scale to 3".toList) 0 "c" "e" []).queue = [] :=
  ⟨(C7_theorem ("help me scale to 3".toList) emptyQuota "u" none 0 "c" "e" []
      (Or.inl (by decide))).1,
   (C7_theorem ("help me scale to 3".toList) emptyQuota "u" none 0 "c" "e" []
      (Or.inl (by decide))).2.1,
   (C7_theorem ("help me scale to 3".toList) emptyQuota "u" none 0 "c" "e" []
      (Or.inl (by decide))).2.2⟩

/-- Claim C8, counterexample: with the adapter stubbed so that `scale(3)`
succeeds while a status read would report 2 replicas, the worker records
the command SUCCESS — not FAILED with a verification error — and never
issues a status call: its only adapter call is the scale itself, so no
post-mutation verification takes place. -/
theorem C8_counterexample :
    (iterFinal initSysState cmdScale3 adMismatch 5).results "c1" =
      some ⟨"c1", .SUCCESS, none, some 5⟩ ∧
    adMismatch.statusReplicas = 2 ∧
    (iterFinal initSysState cmdScale3 adMismatch 5).adapterCalls = [.scaleCall 3] ∧
    AdapterCall.statusCall ∉ (iterFinal initSysState cmdScale3 adMismatch 5).adapterCalls := by
  decide

/-- Claim C8, amended: after a successful `scale(r)` adapter call the
worker records the command SUCCESS immediately with a completion
timestamp; it performs no grace delay, no `status()` fetch and no
replicas assertion — the adapter calls of the iteration are exactly the
single scale call, so a reported-replicas mismatch is never detected. -/
theorem C8_theorem (s : SysState) (cmd : ScheduledCommand) (ad : AdapterOracle)
    (now r : Nat)
    (ha : cmd.parsed.action = some .SCALE)
    (hr : cmd.parsed.targetReplicas = some r)
    (hok : ad.scaleOutcome r = .ok ()) :
    (iterFinal s cmd ad now).results cmd.id =
      some ⟨cmd.id, .SUCCESS, none, some now⟩ ∧
    (iterFinal s cmd ad now).adapterCalls = s.adapterCalls ++ [.scaleCall r] := by
  have hexec : executeCommand ad cmd = (.ok (), [.scaleCall r]) := by
    simp [executeCommand, ha, hr, hok]
  constructor <;> simp [iterFinal, iterMid, hexec, setResult]

/-- Claim C8, witness for the amended theorem at the mismatch stub. -/
theorem C8_witness :
    (iterFinal initSysState cmdScale3 adMismatch 11).results cmdScale3.id =
      some ⟨cmdScale3.id, .SUCCESS, none, some 11⟩ ∧
    (iterFinal initSysState cmdScale3 adMismatch 11).adapterCalls = [.scaleCall 3] :=
  ⟨(C8_theorem initSysState cmdScale3 adMismatch 11 3 (by decide) (by decide) rfl).1,
   by simpa using
     (C8_theorem initSysState cmdScale3 adMismatch 11 3 (by decide) (by decide) rfl).2⟩

/-- Claim C9, counterexample: when the worker begins executing an EXECUTE
command it does not publish to the execution-state registry: in the
mid-iteration state the mutex is locked, `isExecuting` is set and the
command's result is RUNNING, yet the registry still reports
workerStatus idle and mutexStatus free — the claimed publication of
`workerStatus=executing` and `mutexStatus=locked` does not happen, and
the claimed equivalence fails. -/
theorem C9_counterexample :
    (iterMid initSysState cmdScale3).mutexLocked = true ∧
    (iterMid initSysState cmdScale3).isExecuting = true ∧
    (iterMid initSysState cmdScale3).results "c1" =
      some ⟨"c1", .RUNNING, none, none⟩ ∧
    (iterMid initSysState cmdScale3).registry.workerStatus = .idle ∧
    (iterMid initSysState cmdScale3).registry.mutexStatus = .free := by
  decide

/-- Claim C9, amended: the worker tracks execution only through its own
`isExecuting` flag and the mutex's locked flag, never writing
workerStatus, mutexStatus or currentCommand to the registry: while an
EXECUTE command runs the mutex is locked, `isExecuting` is true and the
result is RUNNING, on every exit of the guarded scope `isExecuting` is
false and the mutex is released, and the registry is unchanged at both
points. -/
theorem C9_theorem (s : SysState) (cmd : ScheduledCommand) (ad : AdapterOracle)
    (now : Nat) (ht : cmd.parsed.ctype = .EXECUTE) :
    (iterMid s cmd).registry = s.registry ∧
    (iterFinal s cmd ad now).registry = s.registry ∧
    (iterMid s cmd).mutexLocked = true ∧
    (iterMid s cmd).isExecuting = true ∧
    (iterMid s cmd).results cmd.id = some ⟨cmd.id, .RUNNING, none, none⟩ ∧
    (iterFinal s cmd ad now).isExecuting = false ∧
    (iterFinal s cmd ad now).mutexLocked = false :=
  ⟨rfl, (iterFinal_always s cmd ad now).2.2.2, rfl, rfl,
   by simp [iterMid, setResult],
   (iterFinal_always s cmd ad now).2.2.1, (iterFinal_always s cmd ad now).2.1⟩

/-- Claim C9, witness for the amended theorem at a concrete command. -/
theorem C9_witness :
    (iterMid initSysState cmdScale3).registry = initRegistry ∧
    (iterFinal initSysState cmdScale3 adMismatch 5).registry = initRegistry ∧
    (iterMid initSysState cmdScale3).mutexLocked = true ∧
    (iterFinal initSysState cmdScale3 adMismatch 5).mutexLocked = false :=
  ⟨(C9_theorem initSysState cmdScale3 adMismatch 5 (by decide)).1,
   (C9_theorem initSysState cmdScale3 adMismatch 5 (by decide)).2.1,
   (C9_theorem initSysState cmdScale3 adMismatch 5 (by decide)).2.2.1,
   (C9_theorem initSysState cmdScale3 adMismatch 5 (by decide)).2.2.2.2.2.2⟩

/-- Claim C10: `gracefulShutdown` stops intake of new commands (the run
loop no longer dequeues), leaves the in-flight command untouched so it
can complete, and returns even when the worker is not idle; and the
bootstrap's SIGINT and SIGTERM handlers invoke `gracefulShutdown` on the
worker instance before process exit. -/
theorem C10_theorem :
    (∀ w, (gracefulShutdown w).running = false ∧
      (gracefulShutdown w).inFlight = w.inFlight) ∧
    (∀ w q, w.running = false → intakeStep w q = (none, q)) ∧
    shutdownHandlers =
      [("SIGINT", handleShutdownActions), ("SIGTERM", handleShutdownActions)] ∧
    List.indexOf .callGracefulShutdown handleShutdownActions <
      List.indexOf .exitProcess handleShutdownActions := by
  refine ⟨fun w => ⟨rfl, rfl⟩, ?_, rfl, by decide⟩
  intro w q hw
  simp [intakeStep, hw]

/-- Claim C10, witness: shutting down a busy worker stops intake while
keeping its in-flight command, and a stopped worker dequeues nothing. -/
theorem C10_witness :
    (gracefulShutdown ⟨true, some "c"⟩).running = false ∧
    (gracefulShutdown ⟨true, some "c"⟩).inFlight = some "c" ∧
    intakeStep ⟨false, none⟩ [] = (none, []) :=
  ⟨(C10_theorem.1 ⟨true, some "c"⟩).1,
   (C10_theorem.1 ⟨true, some "c"⟩).2,
   C10_theorem.2.1 ⟨false, none⟩ [] rfl⟩

end DeployBot
